import Mathlib

/-!
Verification development for the agent execution core of the kimi-rcli
repository (crates kimi-core and kosong-rs).

The Rust sources are shallowly embedded: each Rust method becomes a pure
Lean function over explicit state.  Machine integers (`usize`, `u64`) are
embedded as `Nat` — none of the embedded operations can overflow a 64-bit
counter on inputs reachable in the program, and none of the verified
properties depend on wrap-around.  External effects are made explicit:

* `uuid::Uuid::new_v4()` (fresh random identifiers) becomes a `String`
  argument supplied by the caller;
* `serde_json` parsing/serialisation of arbitrary text (an external
  library) becomes an oracle function carried in an environment record;
* the LLM reply, the approval responder's decision, the rollback-mailbox
  content observed at the top of a step, and the wall-clock elapsed time
  become per-step environment inputs (in the source these arrive over
  channels or from the operating system);
* the tokio channels of the wire become lists of emitted events.

Field and function names follow the Rust source (`snake_case` kept).
-/

namespace KimiRcli

/-! ## Data model — kimi-core/src/types.rs -/

/-- `types.rs` `Attachment`: path plus mime type (`PathBuf` embedded as
`String`). -/
structure Attachment where
  path : String
  mime_type : String
  deriving Repr, DecidableEq

/-- `types.rs` `UserInput`. -/
structure UserInput where
  text : String
  attachments : List Attachment
  deriving Repr, DecidableEq

/-- `types.rs` `Role`. -/
inductive Role where
  | system
  | user
  | assistant
  | tool
  deriving Repr, DecidableEq

/-- `types.rs` `ApprovalKind`. -/
inductive ApprovalKind where
  | approve
  | reject
  | approveOnce
  deriving Repr, DecidableEq

/-- A minimal embedding of `serde_json::Value`, rich enough for every use
the embedded code makes of it (object field lookup and string extraction
in `build_approval_description`, opaque payloads elsewhere).  Floating
point numbers never reach the verified code paths, so numbers are `Int`. -/
inductive Json where
  | null
  | bool (b : Bool)
  | num (n : Int)
  | str (s : String)
  | arr (xs : List Json)
  | obj (kvs : List (String × Json))
  deriving Repr

/-- `serde_json::Value::get` on objects (`None` on non-objects). -/
def Json.get (v : Json) (key : String) : Option Json :=
  match v with
  | .obj kvs => (kvs.find? (fun kv => kv.1 == key)).map (·.2)
  | _ => none

/-- `serde_json::Value::as_str`. -/
def Json.as_str (v : Json) : Option String :=
  match v with
  | .str s => some s
  | _ => none

/-- `types.rs` `Message`.  The `metadata` map is only ever written by
`chat.rs::process_single_turn`, which stores the pending tool calls under
the single key `"tool_calls"`; the embedding keeps the map as an
association list from keys to `Json`. -/
structure Message where
  role : Role
  content : String
  metadata : Option (List (String × Json))
  deriving Repr

/-- `types.rs` `Checkpoint`. -/
structure Checkpoint where
  id : String
  message_index : Nat
  token_count : Nat
  summary : Option String
  deriving Repr, DecidableEq

/-- `types.rs` `Request` (approval request). -/
structure Request where
  id : String
  tool_call_id : String
  sender : String
  action : String
  description : String
  deriving Repr, DecidableEq

/-- `types.rs` `LoopControl`. -/
structure LoopControl where
  max_iterations : Nat
  timeout_seconds : Nat
  deriving Repr, DecidableEq

/-! ## Transcript — kimi-core/src/context.rs

`Context` owns the message log, the checkpoint list and the token count.
The `context_file : PathBuf` field only parameterises the (I/O) `save` /
`load` methods and is dropped from the embedding; no embedded operation
reads it. -/

structure Context where
  messages : List Message
  checkpoints : List Checkpoint
  token_count : Nat
  deriving Repr

namespace Context

/-- `Context::new` (the file-path argument is dropped, see above). -/
def new : Context :=
  { messages := [], checkpoints := [], token_count := 0 }

/-- `Context::add_message`. -/
def add_message (ctx : Context) (message : Message) : Context :=
  { ctx with messages := ctx.messages ++ [message] }

/-- `Context::message_count`. -/
def message_count (ctx : Context) : Nat :=
  ctx.messages.length

/-- `Context::clear_messages`: drops all messages and zeroes the token
count; the checkpoint list is untouched. -/
def clear_messages (ctx : Context) : Context :=
  { ctx with messages := [], token_count := 0 }

/-- `Context::create_checkpoint`.  The source draws the checkpoint id
from `uuid::Uuid::new_v4()`; the embedding takes the fresh id as an
argument. -/
def create_checkpoint (ctx : Context) (id : String) (summary : Option String) :
    Context :=
  { ctx with
    checkpoints := ctx.checkpoints ++
      [{ id := id
         message_index := ctx.messages.length
         token_count := ctx.token_count
         summary := summary }] }

/-- `Context::last_checkpoint`. -/
def last_checkpoint (ctx : Context) : Option Checkpoint :=
  ctx.checkpoints.getLast?

/-- `Context::compact_to_last_checkpoint`.  Returns the updated context
and the `Option<usize>` result (`checkpoint.message_index`, which the
source calls `removed`); on `none` the context is unchanged (the `?`
operator returns before any mutation). -/
def compact_to_last_checkpoint (ctx : Context) : Context × Option Nat :=
  match ctx.checkpoints.getLast? with
  | none => (ctx, none)
  | some checkpoint =>
      ({ ctx with
         messages := ctx.messages.take checkpoint.message_index
         token_count := checkpoint.token_count },
       some checkpoint.message_index)

/-- `Context::compact_to_checkpoint`: looks the checkpoint up by id
(first match wins, as `Iterator::find` does) and truncates to it; on an
unknown id the context is unchanged and `none` is returned. -/
def compact_to_checkpoint (ctx : Context) (checkpoint_id : String) :
    Context × Option Nat :=
  match ctx.checkpoints.find? (fun c => c.id == checkpoint_id) with
  | none => (ctx, none)
  | some checkpoint =>
      ({ ctx with
         messages := ctx.messages.take checkpoint.message_index
         token_count := checkpoint.token_count },
       some checkpoint.message_index)

/-- `Context::needs_compaction`. -/
def needs_compaction (ctx : Context) (max_tokens : Nat) : Bool :=
  ctx.token_count > max_tokens

/-- `Context::set_token_count`. -/
def set_token_count (ctx : Context) (count : Nat) : Context :=
  { ctx with token_count := count }

end Context

/-- The transcript invariant stated by the specification: every recorded
checkpoint index lies within `[0, message_count]`.  (`0 ≤ _` is vacuous
over `Nat` but kept for fidelity to the spec's phrasing.) -/
def checkpointIndicesValid (ctx : Context) : Prop :=
  ∀ cp ∈ ctx.checkpoints, 0 ≤ cp.message_index ∧ cp.message_index ≤ ctx.message_count

instance (ctx : Context) : Decidable (checkpointIndicesValid ctx) := by
  unfold checkpointIndicesValid
  infer_instance

/-! ## Message constructors — kimi-core/src/soul/mod.rs -/

/-- `soul/mod.rs` `user_message`. -/
def user_message (content : String) : Message :=
  { role := .user, content := content, metadata := none }

/-- `soul/mod.rs` `assistant_message`. -/
def assistant_message (content : String) : Message :=
  { role := .assistant, content := content, metadata := none }

/-- `soul/mod.rs` `tool_message`. -/
def tool_message (content : String) : Message :=
  { role := .tool, content := content, metadata := none }

/-! ## Compaction — kimi-core/src/soul/compaction.rs -/

/-- `SimpleCompaction::summarize_messages` (placeholder text in the
source; the message list argument is unused there). -/
def summarize_messages (_messages : List Message) : String :=
  "[Conversation summary placeholder]"

/-- `SimpleCompaction::compact`.  Both branches of the source return
`Ok`, so the embedding returns the new context and the removed count
directly.  The emergency branch creates a checkpoint (fresh id supplied
as `fresh_id`) and then clears all messages. -/
def SimpleCompaction.compact (ctx : Context) (fresh_id : String) :
    Context × Nat :=
  match ctx.compact_to_last_checkpoint with
  | (ctx1, some removed) => (ctx1, removed)
  | (_, none) =>
      let summary :=
        if ctx.messages.isEmpty then "Empty context"
        else summarize_messages ctx.messages
      let ctx1 := ctx.create_checkpoint fresh_id (some summary)
      let count := ctx1.message_count
      (ctx1.clear_messages, count)

/-- `SimpleCompaction::is_needed` (delegates to
`Context::needs_compaction` with the strategy's own `max_tokens`). -/
def SimpleCompaction.is_needed (ctx : Context) (max_tokens : Nat) : Bool :=
  ctx.needs_compaction max_tokens

/-- `AggressiveCompaction::compact` with `keep_recent` recent messages
kept.  When there are more than `keep_recent` messages it creates a
checkpoint (at the current length) and then drains the oldest
`keep_index` messages. -/
def AggressiveCompaction.compact (ctx : Context) (keep_recent : Nat)
    (fresh_id : String) : Context × Nat :=
  let total_messages := ctx.messages.length
  if total_messages ≤ keep_recent then (ctx, 0)
  else
    let keep_index := total_messages - keep_recent
    let removed := keep_index
    let summary := s!"[Truncated {removed} older messages]"
    let ctx1 := ctx.create_checkpoint fresh_id (some summary)
    ({ ctx1 with messages := ctx1.messages.drop keep_index }, removed)

/-! ## Approval gate — kimi-core/src/approval.rs

`Approval` holds a `yolo` flag and a single mutex-protected pending
slot.  `request` either resolves immediately (yolo mode, or a second
request while one is pending) or parks the request in the slot and
suspends on a oneshot channel.  The embedding splits `request` into its
synchronous part: the returned `RequestStep` says whether the call
resolved immediately (and with what answer) or blocked after occupying
the slot. -/

structure Approval where
  yolo : Bool
  pending : Option Request
  deriving Repr, DecidableEq

/-- Outcome of the synchronous part of `Approval::request`. -/
inductive RequestStep where
  /-- The call returned without suspending, with this answer. -/
  | immediate (answer : ApprovalKind)
  /-- The call stored the request in the slot and suspended on the
  oneshot receiver. -/
  | blocked
  deriving Repr, DecidableEq

namespace Approval

/-- `Approval::new`. -/
def new : Approval := { yolo := false, pending := none }

/-- `Approval::yolo`. -/
def yoloMode : Approval := { yolo := true, pending := none }

/-- `Approval::is_yolo`. -/
def is_yolo (a : Approval) : Bool := a.yolo

/-- Synchronous part of `Approval::request` (approval.rs lines 53-72):
yolo mode returns `Approve` at once; an occupied slot returns `Reject`
at once (the slot is left untouched); otherwise the request is stored
and the caller suspends. -/
def request (a : Approval) (req : Request) : RequestStep × Approval :=
  if a.yolo then (.immediate .approve, a)
  else
    match a.pending with
    | some _ => (.immediate .reject, a)
    | none => (.blocked, { a with pending := some req })

/-- `Approval::respond`: takes the pending request and sends `response`
through its oneshot channel; fails with `NoPendingRequest` when the slot
is empty.  The embedding returns the answer delivered to the waiting
`request` call, if any. -/
def respond (a : Approval) (response : ApprovalKind) :
    Except Unit (ApprovalKind × Approval) :=
  match a.pending with
  | some _ => .ok (response, { a with pending := none })
  | none => .error ()

/-- `Approval::cancel`: resolves any pending request as `Reject` and
clears the slot; a no-op when the slot is empty. -/
def cancel (a : Approval) : Option ApprovalKind × Approval :=
  match a.pending with
  | some _ => (some .reject, { a with pending := none })
  | none => (none, a)

/-- `Approval::has_pending`. -/
def has_pending (a : Approval) : Bool := a.pending.isSome

end Approval

/-! ## Rollback mailbox — kimi-core/src/soul/denwarenji.rs -/

/-- `denwarenji.rs` `DMail`: the checkpoint to roll back to (a `usize`
in the source) and the message to append after rollback. -/
structure DMail where
  checkpoint_id : Nat
  message : String
  deriving Repr, DecidableEq

/-! ## Wire events — kimi-core/src/wire.rs -/

/-- `wire.rs` `WireMessage` (the payloads of the tool events are kept as
the strings the source stores; `SubagentEvent` boxes a nested event). -/
inductive WireMessage where
  | turnBegin (user_input : UserInput)
  | turnEnd
  | stepBegin (n : Nat)
  | stepInterrupted
  | compactionBegin
  | compactionEnd
  | textPart (text : String)
  | thinkPart (text : String)
  | imageUrlPart (url : String)
  | audioUrlPart (url : String)
  | videoUrlPart (url : String)
  | toolCall (id name arguments : String)
  | toolCallPart (id name arguments : String)
  | toolResult (tool_call_id output : String) (is_error : Bool)
  /-- Modelled from the spec: `ToolBegin{name, arguments}` — sent by
  soul/chat.rs and listed in the spec's event union (§6), but absent
  from the `WireMessage` enum in wire.rs. -/
  | toolBegin (name arguments : String)
  /-- Modelled from the spec: `ToolEnd{name, result}` — sent by
  soul/chat.rs and listed in the spec's event union (§6), but absent
  from the `WireMessage` enum in wire.rs. -/
  | toolEnd (name result : String)
  | approvalRequest (id tool_call_id sender action description : String)
  | approvalResponse (request_id : String) (response : ApprovalKind)
  | statusUpdate
  | subagentEvent (task_tool_call_id : String) (event : WireMessage)
  deriving Repr, DecidableEq

/-! ## Merging wire channel — kimi-core/src/wire_channel.rs

`wire_channel.rs` `WireSoulSide` broadcasts every event unchanged on the
raw channel and coalesces consecutive `TextPart`s for the merged
channel, holding at most one buffered text run (`merge_buffer`).  The
embedding tracks the buffer as `Option String` and returns the list of
events emitted on the merged channel. -/

namespace WireChannel

/-- `WireSoulSide::flush`: emits the buffered text, if any, and clears
the buffer. -/
def flush (merge_buffer : Option String) : List WireMessage :=
  match merge_buffer with
  | some text => [.textPart text]
  | none => []

/-- `WireSoulSide::send`, merged-channel effect only (the raw channel
receives `msg` unchanged).  A `TextPart` is appended to the buffer (or
starts it); any other event — `ThinkPart` included — flushes the buffer
and is then forwarded.  Returns the new buffer and the events emitted on
the merged channel. -/
def send (merge_buffer : Option String) (msg : WireMessage) :
    Option String × List WireMessage :=
  match msg with
  | .textPart text =>
      match merge_buffer with
      | some existing => (some (existing ++ text), [])
      | none => (some text, [])
  | other => (none, flush merge_buffer ++ [other])

/-- Sending a whole sequence, accumulating the merged-channel output. -/
def sendAll (merge_buffer : Option String) :
    List WireMessage → Option String × List WireMessage
  | [] => (merge_buffer, [])
  | msg :: rest =>
      let (buf1, out1) := send merge_buffer msg
      let (buf2, out2) := sendAll buf1 rest
      (buf2, out1 ++ out2)

/-- The full merged-view delivery for a producer that sends `msgs` and is
then dropped: `impl Drop for WireSoulSide` calls `flush`, so the final
buffer content is emitted before the channel closes. -/
def mergedDelivery (msgs : List WireMessage) : List WireMessage :=
  let (buf, out) := sendAll none msgs
  out ++ flush buf

/-- Whether an event is a `TextPart`. -/
def isTextPart : WireMessage → Bool
  | .textPart _ => true
  | _ => false

/-- The text of a `TextPart`. -/
def textOf : WireMessage → Option String
  | .textPart t => some t
  | _ => none

/-- Modelled from the spec: the merged sequence is obtained from the
sent sequence by replacing every maximal run of consecutive `TextPart`
events with a single `TextPart` carrying the concatenation of the run's
texts, all other events unchanged and in order.  This is the spec-side
definition used to state the refinement; `mergedDelivery` above is the
code-side one. -/
def mergeSpec : List WireMessage → List WireMessage
  | [] => []
  | .textPart t :: rest =>
      .textPart (((rest.takeWhile isTextPart).filterMap textOf).foldl
          (fun a b => a ++ b) t)
        :: mergeSpec (rest.dropWhile isTextPart)
  | m :: rest => m :: mergeSpec rest
termination_by msgs => msgs.length
decreasing_by
  · simp only [List.length_cons]
    exact Nat.lt_succ_of_le (List.dropWhile_suffix isTextPart).length_le
  · simp

end WireChannel

/-! ## Toolset — kimi-core/src/soul/toolset.rs

`KimiToolset` is a map from tool names to black-box `Tool` trait objects.
The embedding keeps the set of registered names; the tool bodies are
external capabilities and enter as an oracle `toolExec` carried by the
environment records below. -/

/-- `toolset.rs` `ToolError`. -/
inductive ToolError where
  | notFound (name : String)
  | invalidParameters (msg : String)
  | execution (msg : String)
  | mcpServer (msg : String)
  | timeout
  | cancelled
  deriving Repr, DecidableEq

/-- The `thiserror` `Display` strings of `ToolError` (used by
`e.to_string()` at the call sites). -/
def ToolError.toMessage : ToolError → String
  | .notFound name => "Tool not found: " ++ name
  | .invalidParameters msg => "Invalid parameters: " ++ msg
  | .execution msg => "Execution failed: " ++ msg
  | .mcpServer msg => "MCP server error: " ++ msg
  | .timeout => "Timeout"
  | .cancelled => "Cancelled"

/-- `KimiToolset::execute`: `NotFound` for an unregistered name,
otherwise the (external) tool body runs.  `tools` is the set of
registered names, `toolExec` the oracle for the registered bodies. -/
def KimiToolset.execute (tools : List String)
    (toolExec : String → Json → Except ToolError Json)
    (name : String) (params : Json) : Except ToolError Json :=
  if tools.contains name then toolExec name params
  else .error (.notFound name)

/-- `toolset.rs` `ToolCall` (the loop-side tool-call record). -/
structure ToolCall where
  id : String
  name : String
  arguments : String
  deriving Repr, DecidableEq

/-- `ToolCall::parse_arguments`: `serde_json::from_str` (oracle `parse`)
with the error wrapped as `InvalidParameters("Invalid JSON: …")`. -/
def ToolCall.parse_arguments (parse : String → Except String Json)
    (call : ToolCall) : Except ToolError Json :=
  match parse call.arguments with
  | .ok v => .ok v
  | .error e => .error (.invalidParameters ("Invalid JSON: " ++ e))

/-- `toolset.rs` `ToolCallResult`. -/
structure ToolCallResult where
  tool_call_id : String
  output : String
  is_error : Bool
  deriving Repr, DecidableEq

/-- `ToolCallResult::success`. -/
def ToolCallResult.success (tool_call_id output : String) : ToolCallResult :=
  { tool_call_id := tool_call_id, output := output, is_error := false }

/-- `ToolCallResult::error`. -/
def ToolCallResult.mkError (tool_call_id error : String) : ToolCallResult :=
  { tool_call_id := tool_call_id, output := error, is_error := true }

/-! ## kosong-rs message and stream types

`kosong-rs/src/message.rs` is declared by `lib.rs` (`pub mod message`)
but the file itself is absent from the sources; the shapes below are
reconstructed from their call sites (`soul/chat.rs`, the providers'
serde derives) and §3 of the specification. -/

/-- Modelled from the spec: the `function` payload of a kosong
`ToolCall` — tool name and arguments as complete JSON text (spec §3
"ToolCall. id, name, arguments (JSON text)"; accessed as
`tool_call.function.name` / `tool_call.function.arguments` in
soul/chat.rs). -/
structure KosongFunctionCall where
  name : String
  arguments : String
  deriving Repr, DecidableEq

/-- Modelled from the spec: kosong `message::ToolCall`, accessed as
`tool_call.id` and `tool_call.function` by soul/chat.rs. -/
structure KosongToolCall where
  id : String
  function : KosongFunctionCall
  deriving Repr, DecidableEq

/-- Modelled from the spec: a streamed tool-call fragment
(`ToolCallPart({index, id?, name?, arguments_fragment?})`, spec §4.5). -/
structure KosongToolCallPart where
  index : Nat
  id : Option String
  name : Option String
  arguments_fragment : Option String
  deriving Repr, DecidableEq

/-- `kosong-rs/src/chat_provider/mod.rs` `ChatError` (reqwest and serde
errors carried as their display strings). -/
inductive ChatError where
  | request (msg : String)
  | parse (msg : String)
  | api (status : Nat) (message : String)
  | json (msg : String)
  | streamEnded
  | config (msg : String)
  | other (msg : String)
  deriving Repr, DecidableEq

/-- Modelled from the spec: the typed chunk stream `kosong_rs::StreamChunk`
consumed by soul/chat.rs and re-exported by kosong-rs/src/lib.rs; its
defining module is absent from the sources.  Variants follow the call
sites and spec §4.5: incremental text, a terminal completed tool call,
and an internal tool-call fragment. -/
inductive StreamChunk where
  | text (t : String)
  | toolCall (tc : KosongToolCall)
  | toolCallPart (part : KosongToolCallPart)
  deriving Repr, DecidableEq

/-- The `Display` strings of `ChatError` (`thiserror` derive in
chat_provider/mod.rs), used when soul/chat.rs wraps a stream error as
`SoulError::Llm(e.to_string())`. -/
def ChatError.toMessage : ChatError → String
  | .request msg => "Request failed: " ++ msg
  | .parse msg => "Failed to parse response: " ++ msg
  | .api _ message => "API error: " ++ message
  | .json msg => "JSON error: " ++ msg
  | .streamEnded => "Stream ended unexpectedly"
  | .config msg => "Invalid configuration: " ++ msg
  | .other msg => msg

/-! ## Soul errors and outcomes — kimi-core/src/soul/kimisoul.rs -/

/-- `kimisoul.rs` `SoulError` (payloads are the display strings of the
wrapped errors). -/
inductive SoulError where
  | contextErr (msg : String)
  | wire (msg : String)
  | tool (msg : String)
  | llm (msg : String)
  | approval (msg : String)
  | compaction (msg : String)
  | timeout
  | cancelled
  | maxIterations
  | slashCommand (msg : String)
  | dmailErr (msg : String)
  deriving Repr, DecidableEq

/-- `kimisoul.rs` `TurnOutcome`. -/
inductive TurnOutcome where
  | completed (response : String)
  | interrupted
  | error (msg : String)
  | slashCommandHandled
  | dmailRollback
  deriving Repr, DecidableEq

/-- `kimisoul.rs` `StepOutcome`. -/
inductive StepOutcome where
  | cont
  | complete (response : String)
  | toolCalls (calls : List ToolCall)
  | interrupted
  | timeout
  | maxIterations
  deriving Repr, DecidableEq

/-! ## Chat processing — kimi-core/src/soul/chat.rs

`process_message` drives the real LLM tool-call flow: it streams one LLM
response, forwards text to the wire, executes any returned tool calls
under the approval gate and loops (at most 5 rounds).  External inputs
are gathered in `ChatEnv`: the serde oracles, the black-box tool bodies,
the resolved answer of `approval.request` (in yolo mode that answer is
always `approve`, per `Approval::request`), and the fresh uuid drawn for
the approval request. -/

structure ChatEnv where
  /-- `serde_json::from_str` on arbitrary text (external library). -/
  parse : String → Except String Json
  /-- `serde_json::to_string` (external library). -/
  serialize : Json → String
  /-- Bodies of the registered tools (external capabilities). -/
  toolExec : String → Json → Except ToolError Json
  /-- The answer with which `soul.approval.request(request)` resolves. -/
  approvals : Request → ApprovalKind
  /-- The `uuid::Uuid::new_v4()` drawn for the approval request. -/
  fresh_request_id : String

/-- `chat.rs` `build_approval_description`: a human-readable description
per known tool (shell commands truncated to 60 characters; the source
slices 60 bytes, which agrees on ASCII commands). -/
def build_approval_description (tool_name : String) (params : Json) : String :=
  match tool_name with
  | "WriteFile" =>
      let path := ((params.get "path").bind Json.as_str).getD "unknown"
      let mode := ((params.get "mode").bind Json.as_str).getD "overwrite"
      "Write file '" ++ path ++ "' (" ++ mode ++ ")"
  | "StrReplaceFile" =>
      let path := ((params.get "path").bind Json.as_str).getD "unknown"
      "Edit file '" ++ path ++ "'"
  | "Shell" =>
      let command := ((params.get "command").bind Json.as_str).getD "unknown"
      let cmd_display :=
        if command.length > 60 then (command.take 60) ++ "..." else command
      "Execute shell command: " ++ cmd_display
  | "ReadFile" =>
      let path := ((params.get "path").bind Json.as_str).getD "unknown"
      "Read file '" ++ path ++ "'"
  | "Glob" =>
      let pattern := ((params.get "pattern").bind Json.as_str).getD "unknown"
      "Search files matching '" ++ pattern ++ "'"
  | "Grep" =>
      let pattern := ((params.get "pattern").bind Json.as_str).getD "unknown"
      "Search for pattern '" ++ pattern ++ "'"
  | "Task" =>
      let desc := ((params.get "description").bind Json.as_str).getD "unknown"
      "Spawn subagent task: " ++ desc
  | _ => "Execute tool '" ++ tool_name ++ "'"

/-- `chat.rs` `execute_tool_call`.  Returns the result string appended
to the transcript as the tool message, together with the wire events the
call emitted (`ToolBegin`/`ToolEnd` when execution happens).  The single
fallible exit is the JSON parse of the arguments, which is propagated
with `?` as `SoulError::Tool` — before any event is emitted. -/
def execute_tool_call (tools : List String) (env : ChatEnv)
    (tool_call : KosongToolCall) :
    Except SoulError (String × List WireMessage) :=
  let tool_name := tool_call.function.name
  if ¬ tools.contains tool_name then
    .ok ("Tool not found: " ++ tool_name, [])
  else
    match env.parse tool_call.function.arguments with
    | .error e => .error (.tool ("Invalid tool arguments: " ++ e))
    | .ok params =>
        let description := build_approval_description tool_name params
        let request : Request :=
          { id := env.fresh_request_id
            tool_call_id := tool_call.id
            sender := "kimi"
            action := tool_name
            description := description }
        match env.approvals request with
        | .reject =>
            .ok ("Tool '" ++ tool_name ++ "' was rejected by user approval", [])
        | _ =>
            let result :=
              match KimiToolset.execute tools env.toolExec tool_name params with
              | .ok output => env.serialize output
              | .error e => "Tool execution failed: " ++ e.toMessage
            .ok (result,
              [.toolBegin tool_name tool_call.function.arguments,
               .toolEnd tool_name result])

/-- `chat.rs` `TurnResult`. -/
inductive TurnResult where
  | complete (response : String)
  | toolCallsExecuted
  deriving Repr, DecidableEq

/-- The `while let Some(chunk) = stream.next()` loop of
`process_single_turn`: accumulates the full response text and the
pending tool calls, forwards each text fragment as a `TextPart` wire
event, ignores `ToolCallPart` fragments, and stops at the first stream
error (which the source returns immediately as `SoulError::Llm`). -/
def streamLoop : List (Except ChatError StreamChunk) →
    String × List KosongToolCall × List WireMessage × Option ChatError
  | [] => ("", [], [], none)
  | chunk :: rest =>
      match chunk with
      | .ok (.text t) =>
          let (resp, calls, evs, err) := streamLoop rest
          (t ++ resp, calls, .textPart t :: evs, err)
      | .ok (.toolCall tc) =>
          let (resp, calls, evs, err) := streamLoop rest
          (resp, tc :: calls, evs, err)
      | .ok (.toolCallPart _) => streamLoop rest
      | .error e => ("", [], [], some e)

/-- The serde serialisation of the pending tool calls stored in the
assistant message's metadata under `"tool_calls"`
(`serde_json::json!(pending_tool_calls)` in the source; the concrete
JSON shape follows the reconstructed `KosongToolCall`). -/
def toolCallsJson (calls : List KosongToolCall) : Json :=
  .arr (calls.map fun tc =>
    .obj [("id", .str tc.id),
          ("name", .str tc.function.name),
          ("arguments", .str tc.function.arguments)])

/-- Executing the pending tool calls in stream order, appending one tool
message per call (`process_single_turn`, tool-call branch).  A
`SoulError` from `execute_tool_call` is propagated with `?`. -/
def runPendingToolCalls (tools : List String) (env : ChatEnv)
    (ctx : Context) :
    List KosongToolCall → Except SoulError (Context × List WireMessage)
  | [] => .ok (ctx, [])
  | tc :: rest =>
      match execute_tool_call tools env tc with
      | .error e => .error e
      | .ok (result, evs) =>
          match runPendingToolCalls tools env
              (ctx.add_message { role := .tool, content := result,
                                 metadata := none }) rest with
          | .error e => .error e
          | .ok (ctx1, evs1) => .ok (ctx1, evs ++ evs1)

/-- `chat.rs` `process_single_turn`: one LLM stream and its tool batch.
Returns the events emitted on the wire together with either the turn's
fatal error or the updated transcript and the `TurnResult`. -/
def process_single_turn (ctx : Context) (tools : List String)
    (env : ChatEnv) (stream : List (Except ChatError StreamChunk)) :
    List WireMessage × Except SoulError (Context × TurnResult) :=
  let (full_response, pending_tool_calls, evs, errOpt) := streamLoop stream
  match errOpt with
  | some e => (evs, .error (.llm e.toMessage))
  | none =>
      if pending_tool_calls.isEmpty then
        (evs, .ok (ctx.add_message
          { role := .assistant, content := full_response, metadata := none },
          .complete full_response))
      else
        let ctx1 := ctx.add_message
          { role := .assistant
            content := full_response
            metadata := some [("tool_calls", toolCallsJson pending_tool_calls)] }
        match runPendingToolCalls tools env ctx1 pending_tool_calls with
        | .error e => (evs, .error e)
        | .ok (ctx2, evs1) => (evs ++ evs1, .ok (ctx2, .toolCallsExecuted))

/-- The `for iteration in 0..max_iterations` loop of `process_message`:
round `i` consumes stream `streams i` under environment `envs i`;
`ToolCallsExecuted` continues to the next round, exhausting all 5 rounds
yields `SoulError::MaxIterations`. -/
def process_message_loop (tools : List String) (envs : Nat → ChatEnv)
    (streams : Nat → List (Except ChatError StreamChunk)) :
    Nat → Nat → Context → List WireMessage × Except SoulError (Context × String)
  | 0, _, _ => ([], .error .maxIterations)
  | fuel + 1, i, ctx =>
      match process_single_turn ctx tools (envs i) (streams i) with
      | (evs, .error e) => (evs, .error e)
      | (evs, .ok (ctx1, .complete response)) => (evs, .ok (ctx1, response))
      | (evs, .ok (ctx1, .toolCallsExecuted)) =>
          let (evs1, res) := process_message_loop tools envs streams fuel (i + 1) ctx1
          (evs ++ evs1, res)

/-- `chat.rs` `process_message`: appends the user message and runs up to
`max_iterations = 5` rounds. -/
def process_message (ctx : Context) (tools : List String)
    (envs : Nat → ChatEnv)
    (streams : Nat → List (Except ChatError StreamChunk))
    (user_text : String) :
    List WireMessage × Except SoulError (Context × String) :=
  let ctx0 := ctx.add_message
    { role := .user, content := user_text, metadata := none }
  process_message_loop tools envs streams 5 0 ctx0

/-! ## Slash commands — kimi-core/src/soul/slash.rs -/

/-- The default commands registered by
`SlashCommandRegistry::register_defaults`. -/
inductive SlashCmd where
  | help
  | compact
  | reset
  deriving Repr, DecidableEq

/-- `SlashCommandRegistry::get` on the default registry
(`with_defaults`), which `KimiSoul::new` installs. -/
def registry_get : String → Option SlashCmd
  | "help" => some .help
  | "compact" => some .compact
  | "reset" => some .reset
  | _ => none

/-- `slash.rs` `parse_slash_command`: trims, strips a leading `/`, and
splits command from arguments at the first space (`splitn(2, ' ')`). -/
def parse_slash_command (input : String) : Option (String × String) :=
  let trimmed := input.trim
  if trimmed.startsWith "/" then
    let without_slash := trimmed.drop 1
    match without_slash.splitOn " " with
    | [] => none
    | command :: restParts => some (command, " ".intercalate restParts)
  else none

/-! ## The agent loop — kimi-core/src/soul/kimisoul.rs

`KimiSoul` owns the context, the loop-control budget, the compaction
strategy, the approval gate and the toolset.  The mutable per-turn state
is collected in `SoulState`; everything the loop receives from outside
during one `step` is collected in `StepEnv`:

* `dmail` — the content of the `DenwaRenji` mailbox observed at the top
  of the step (written concurrently by external actors);
* `elapsed` — seconds since `turn_start` at the budget check
  (`Instant::elapsed`);
* `fresh_checkpoint_id` — the uuid drawn if emergency compaction
  creates a checkpoint;
* `llm` — the LLM reply.  `KimiSoul::call_llm` in the source is an
  explicit placeholder (`TODO: Integrate with kosong-rs`) that always
  returns fixed text; the embedding takes the reply as an input, so the
  theorems cover every reply the integrated LLM could produce, the
  placeholder's fixed text included;
* `request_ids` — uuids for approval requests (one per tool call);
* `approvals` — the answer with which `approval.request` resolves;
* `toolExec`, `parse`, `serialize` — as in `ChatEnv`. -/

/-- `kimisoul.rs` `LlmResponse`. -/
inductive LlmResponse where
  | text (s : String)
  | toolCalls (calls : List ToolCall)
  | interrupted
  deriving Repr, DecidableEq

structure SoulState where
  context : Context
  iteration : Nat
  loop_control : LoopControl
  should_stop : Bool
  turn_start : Option Nat
  /-- `SimpleCompaction.max_tokens` of the configured strategy. -/
  compaction_max_tokens : Nat
  /-- Names registered in the `KimiToolset`. -/
  tools : List String
  /-- `approval.is_yolo()`. -/
  yolo : Bool
  /-- `agent.name`. -/
  agent_name : String

structure StepEnv where
  dmail : Option DMail
  elapsed : Nat
  fresh_checkpoint_id : String
  llm : LlmResponse
  request_ids : Nat → String
  approvals : Request → ApprovalKind
  toolExec : String → Json → Except ToolError Json
  parse : String → Except String Json
  serialize : Json → String

/-- Replacing the context of a soul state (a named helper for the
structure-update expressions of the source). -/
def SoulState.with_context (s : SoulState) (ctx : Context) : SoulState :=
  { s with context := ctx }

/-- Setting `turn_start` of a soul state. -/
def SoulState.with_turn_start (s : SoulState) (t : Option Nat) : SoulState :=
  { s with turn_start := t }

/-- The D-Mail branch of `KimiSoul::step`: roll back to the checkpoint
named by the D-Mail, falling back to the last checkpoint when the id is
unknown, then append the injected user message. -/
def step_dmail (ctx : Context) (dmail : DMail) : Context :=
  let rolled := ctx.compact_to_checkpoint (toString dmail.checkpoint_id)
  let ctx2 :=
    match rolled.2 with
    | some _ => rolled.1
    | none => rolled.1.compact_to_last_checkpoint.1
  ctx2.add_message (user_message dmail.message)

/-- The compaction check at the top of `KimiSoul::step`: when the token
count exceeds the budget, `CompactionBegin`/`CompactionEnd` are emitted
around `SimpleCompaction::compact`. -/
def step_compact (s : SoulState) (env : StepEnv) :
    SoulState × List WireMessage :=
  if SimpleCompaction.is_needed s.context s.compaction_max_tokens then
    ({ s with context :=
        (SimpleCompaction.compact s.context env.fresh_checkpoint_id).1 },
     [WireMessage.compactionBegin, WireMessage.compactionEnd])
  else (s, [])

/-- `KimiSoul::step`.  In order: the D-Mail check (rollback, inject,
continue); the compaction check; the iteration and timeout budgets;
`StepBegin`; the LLM call. -/
def step (s : SoulState) (env : StepEnv) :
    SoulState × List WireMessage × StepOutcome :=
  match env.dmail with
  | some dmail =>
      ({ s with context := step_dmail s.context dmail }, [], .cont)
  | none =>
      let sc := step_compact s env
      let s1 := sc.1
      let evs1 := sc.2
      if s1.iteration ≥ s1.loop_control.max_iterations then
        (s1, evs1, .maxIterations)
      else if s1.turn_start.isSome ∧ env.elapsed > s1.loop_control.timeout_seconds then
        (s1, evs1, .timeout)
      else
        let evs2 := evs1 ++ [WireMessage.stepBegin s1.iteration]
        let s2 := { s1 with iteration := s1.iteration + 1 }
        match env.llm with
        | .text t =>
            ({ s2 with context := s2.context.add_message (assistant_message t) },
             evs2, .complete t)
        | .toolCalls calls => (s2, evs2, .toolCalls calls)
        | .interrupted => (s2, evs2, .interrupted)

/-- `KimiSoul::execute_tool`: parses the arguments (`?`-propagated as
`SoulError::Tool` on failure) and runs the tool, capturing execution
failures as an error `ToolCallResult`. -/
def execute_tool (s : SoulState) (env : StepEnv) (call : ToolCall) :
    Except SoulError ToolCallResult :=
  match call.parse_arguments env.parse with
  | .error e => .error (.tool ("Invalid arguments: " ++ e.toMessage))
  | .ok params =>
      match KimiToolset.execute s.tools env.toolExec call.name params with
      | .ok output => .ok (ToolCallResult.success call.id (env.serialize output))
      | .error e => .ok (ToolCallResult.mkError call.id e.toMessage)

/-- `KimiSoul::execute_tool_calls`, one call at a time (`i` indexes the
uuid supply for approval requests).  Non-yolo calls emit an
`ApprovalRequest` wire event and resolve through the gate; `Reject`
yields the error result "Tool execution rejected by user". -/
def execute_tool_calls_go (s : SoulState) (env : StepEnv) :
    Nat → List ToolCall →
    List WireMessage × Except SoulError (List ToolCallResult)
  | _, [] => ([], .ok [])
  | i, call :: rest =>
      if ¬ s.tools.contains call.name then
        let r := ToolCallResult.mkError call.id ("Tool '" ++ call.name ++ "' not found")
        let k := execute_tool_calls_go s env (i + 1) rest
        (k.1, k.2.map (fun rs => r :: rs))
      else if ¬ s.yolo then
        let request : Request :=
          { id := env.request_ids i
            tool_call_id := call.id
            sender := s.agent_name
            action := call.name
            description := "Execute " ++ call.name ++ " with args: " ++ call.arguments }
        let ev := WireMessage.approvalRequest request.id call.id
          request.sender request.action request.description
        match env.approvals request with
        | .reject =>
            let r := ToolCallResult.mkError call.id "Tool execution rejected by user"
            let k := execute_tool_calls_go s env (i + 1) rest
            (ev :: k.1, k.2.map (fun rs => r :: rs))
        | _ =>
            match execute_tool s env call with
            | .error e => ([ev], .error e)
            | .ok r =>
                let k := execute_tool_calls_go s env (i + 1) rest
                (ev :: k.1, k.2.map (fun rs => r :: rs))
      else
        match execute_tool s env call with
        | .error e => ([], .error e)
        | .ok r =>
            let k := execute_tool_calls_go s env (i + 1) rest
            (k.1, k.2.map (fun rs => r :: rs))

/-- `KimiSoul::execute_tool_calls`. -/
def execute_tool_calls (s : SoulState) (env : StepEnv) (calls : List ToolCall) :
    List WireMessage × Except SoulError (List ToolCallResult) :=
  execute_tool_calls_go s env 0 calls

/-- The tool-result messages appended by `agent_loop` after a tool
batch: error results get an "Error: " prefix. -/
def appendToolResults (ctx : Context) (results : List ToolCallResult) : Context :=
  results.foldl
    (fun c r =>
      c.add_message (tool_message
        (if r.is_error then "Error: " ++ r.output else r.output)))
    ctx

/-- The `loop` body of `KimiSoul::agent_loop`.  `fuel` bounds how many
iterations are examined (the source loop can run unboundedly when
D-Mails keep arriving; every theorem below holds for every fuel);
exhausted fuel reports `Interrupted`, the same outcome the source's
`break` path produces.  `idx` numbers the step environments consumed so
far. -/
def agent_loop_go (env : Nat → StepEnv) :
    Nat → SoulState → Nat →
    SoulState × List WireMessage × Except SoulError TurnOutcome
  | 0, s, _ => (s, [], .ok .interrupted)
  | fuel + 1, s, idx =>
      if s.should_stop then (s, [], .ok .interrupted)
      else
        let r := step s (env idx)
        let s1 := r.1
        let evs := r.2.1
        match r.2.2 with
        | .cont =>
            let r1 := agent_loop_go env fuel s1 (idx + 1)
            (r1.1, evs ++ r1.2.1, r1.2.2)
        | .complete response => (s1, evs, .ok (.completed response))
        | .toolCalls calls =>
            let t := execute_tool_calls s1 (env idx) calls
            let tevs := t.1
            match t.2 with
            | .error e => (s1, evs ++ tevs, .error e)
            | .ok results =>
                let s2 := s1.with_context (appendToolResults s1.context results)
                let r2 := agent_loop_go env fuel s2 (idx + 1)
                (r2.1, evs ++ tevs ++ r2.2.1, r2.2.2)
        | .interrupted =>
            (s1, evs ++ [WireMessage.stepInterrupted], .ok .interrupted)
        | .timeout => (s1, evs, .ok (.error "Turn timeout"))
        | .maxIterations => (s1, evs, .ok (.error "Max iterations reached"))

/-- `KimiSoul::agent_loop`: records `turn_start` and runs the loop. -/
def agent_loop (fuel : Nat) (s : SoulState) (env : Nat → StepEnv) :
    SoulState × List WireMessage × Except SoulError TurnOutcome :=
  agent_loop_go env fuel (s.with_turn_start (some 0)) 0

/-- The slash-command handlers of the default registry, applied to the
soul state (`slash.rs` `register_defaults`; all three handlers return
`Ok`).  `/help` builds and discards a help text; `/compact` applies the
configured `SimpleCompaction` (fresh checkpoint id supplied); `/reset`
clears the messages. -/
def slash_execute (cmd : SlashCmd) (s : SoulState) (fresh_id : String) :
    SoulState :=
  match cmd with
  | .help => s
  | .compact =>
      { s with context := (SimpleCompaction.compact s.context fresh_id).1 }
  | .reset => { s with context := s.context.clear_messages }

/-- `KimiSoul::run`: `TurnBegin`, the slash-command pre-check, otherwise
checkpoint + user message + `agent_loop`, then `TurnEnd` and the
per-turn state reset.  `ckpt_id` is the uuid drawn for the "User input"
checkpoint (also used by `/compact`'s emergency checkpoint). -/
def run (fuel : Nat) (s : SoulState) (ui : UserInput) (env : Nat → StepEnv)
    (ckpt_id : String) :
    SoulState × List WireMessage × Except SoulError TurnOutcome :=
  match parse_slash_command ui.text with
  | some (command, _args) =>
      match registry_get command with
      | some cmd =>
          (slash_execute cmd s ckpt_id,
           [.turnBegin ui, .turnEnd], .ok .slashCommandHandled)
      | none =>
          (s, [.turnBegin ui, .turnEnd],
           .ok (.error ("Unknown command: /" ++ command)))
  | none =>
      let ctx1 :=
        (s.context.create_checkpoint ckpt_id (some "User input")).add_message
          (user_message ui.text)
      let s1 := s.with_context ctx1
      let r := agent_loop fuel s1 env
      ({ r.1 with iteration := 0, turn_start := none, should_stop := false },
       .turnBegin ui :: (r.2.1 ++ [.turnEnd]), r.2.2)

/-! ## Streaming LLM adapter — kosong-rs/src/chat_provider/kimi.rs

`KimiProvider::generate_with_tools` (streaming branch) unfolds the SSE
byte stream into items of type `GenerateStream`, which
chat_provider/mod.rs defines as a stream of `Result<String, ChatError>`
— plain text fragments.  The embedding works on the decoded SSE lines;
serde's JSON parsing of a `data:` payload (external library) enters as
the already-applied parse result carried by the line. -/

/-- `kimi.rs` `KimiDelta`: the delta of one streaming chunk. -/
structure KimiDelta where
  content : Option String
  reasoning_content : Option String
  role : Option String
  tool_calls : Option (List KosongToolCall)
  deriving Repr, DecidableEq

/-- `kimi.rs` `KimiStreamChoice`. -/
structure KimiStreamChoice where
  delta : KimiDelta
  finish_reason : Option String
  deriving Repr, DecidableEq

/-- `kimi.rs` `KimiStreamChunk`. -/
structure KimiStreamChunk where
  choices : List KimiStreamChoice
  deriving Repr, DecidableEq

/-- One decoded SSE line as the unfold loop in
`generate_with_tools` classifies it: not a `data:` line; the `[DONE]`
sentinel; or a `data:` payload together with the result of
`serde_json::from_str::<KimiStreamChunk>` on it (`none` = parse error,
which the source skips). -/
inductive KimiLine where
  | notData
  | dataDone
  | dataChunk (parsed : Option KimiStreamChunk)
  deriving Repr, DecidableEq

/-- The line-processing loop of the streaming branch of
`KimiProvider::generate_with_tools` (kimi.rs lines 377-437): emits the
non-empty `content` of the first choice of each well-parsed chunk;
`reasoning_content` is skipped and `tool_calls` deltas are dropped (the
source marks the spot `TODO: Handle tool_calls in delta`); `[DONE]` or
the end of the byte stream ends the output.  The item type mirrors
`GenerateStream = Stream<Item = Result<String, ChatError>>`. -/
def kimiProcessLines : List KimiLine → List (Except ChatError String)
  | [] => []
  | .notData :: rest => kimiProcessLines rest
  | .dataDone :: _ => []
  | .dataChunk parsed :: rest =>
      match parsed with
      | none => kimiProcessLines rest
      | some chunk =>
          match chunk.choices.head? with
          | none => kimiProcessLines rest
          | some choice =>
              match choice.delta.content with
              | some content =>
                  if content.isEmpty then kimiProcessLines rest
                  else .ok content :: kimiProcessLines rest
              | none => kimiProcessLines rest

/-! ## Observation helpers -/

/-- The iteration numbers carried by the `StepBegin` events of an event
sequence, in order. -/
def stepBeginNs (evs : List WireMessage) : List Nat :=
  evs.filterMap fun e =>
    match e with
    | .stepBegin n => some n
    | _ => none

/-! # Theorems -/

/-! ## C10 — `/reset` clears messages, zeroes the token count, keeps
checkpoints -/

/-- C10: `Context::clear_messages` — and therefore the built-in `/reset`
slash command, whose default handler calls it — drops all messages, also
resets `token_count` to 0, and leaves the checkpoint list unchanged. -/
theorem clear_messages_resets_tokens_keeps_checkpoints
    (ctx : Context) (s : SoulState) (fresh_id : String) :
    ctx.clear_messages.messages = [] ∧
    ctx.clear_messages.token_count = 0 ∧
    ctx.clear_messages.checkpoints = ctx.checkpoints ∧
    registry_get "reset" = some .reset ∧
    slash_execute .reset s fresh_id = { s with context := s.context.clear_messages } :=
  ⟨rfl, rfl, rfl, rfl, rfl⟩

/-! ## C5 — a second approval request fast-fails with Reject -/

/-- C5: when the gate is not in yolo mode and a request is already
pending, any further `Approval::request` call resolves immediately with
`Reject` — it does not block and it leaves the gate's state, the pending
request included, untouched. -/
theorem second_request_fast_rejects (a : Approval) (req pending_req : Request)
    (hy : a.is_yolo = false) (hp : a.pending = some pending_req) :
    a.request req = (.immediate .reject, a) := by
  simp only [Approval.is_yolo] at hy
  simp [Approval.request, hy, hp]

/-- Witness for C5 at a concrete gate state: a non-yolo gate whose slot
holds a first request fast-rejects a second one. -/
theorem second_request_fast_rejects_witness :
    let r0 : Request :=
      { id := "r0", tool_call_id := "t0", sender := "kimi", action := "Shell",
        description := "Execute shell command: ls" }
    let r1 : Request :=
      { id := "r1", tool_call_id := "t1", sender := "kimi", action := "WriteFile",
        description := "Write file 'a.txt' (overwrite)" }
    let a : Approval := { yolo := false, pending := some r0 }
    a.is_yolo = false ∧ a.pending = some r0 ∧
    a.request r1 = (.immediate .reject, a) :=
  ⟨rfl, rfl, second_request_fast_rejects _ _ _ rfl rfl⟩

/-! ## C8 — the streaming adapter and completed tool calls -/

/-- C8 (refuting evaluation): a streamed response whose delta carries a
completed tool call produces no output item at all from
`KimiProvider::generate_with_tools` — the item type of `GenerateStream`
is plain text and the `tool_calls` delta is dropped at the
`TODO: Handle tool_calls in delta` line, so no terminal `ToolCall` value
is ever emitted. -/
theorem kimi_stream_drops_completed_tool_call :
    kimiProcessLines
      [KimiLine.dataChunk (some
        { choices :=
            [{ delta :=
                 { content := none
                   reasoning_content := none
                   role := none
                   tool_calls := some
                     [{ id := "t1",
                        function :=
                          { name := "echo",
                            arguments := "\x7b\"msg\":\"hi\"\x7d" } }] }
               finish_reason := some "tool_calls" }] }),
       KimiLine.dataDone] = [] := rfl

/-! ## C1 — the checkpoint-index invariant -/

/-- C1 (counterexample): the invariant `message_index ≤ message_count`
does not survive every operation.  `clear_messages` keeps the checkpoint
list while dropping the messages, and rollback
(`compact_to_checkpoint`) truncates the messages while keeping later
checkpoints, so both leave a checkpoint whose index exceeds the message
count. -/
theorem checkpoint_invariant_cex :
    (¬ checkpointIndicesValid
      ((((Context.new).add_message (user_message "hi")).create_checkpoint
          "cp1" none).clear_messages)) ∧
    (¬ checkpointIndicesValid
      ((((((((Context.new.add_message (user_message "m1")).add_message
          (user_message "m2")).add_message (user_message "m3")).create_checkpoint
          "c1" none).add_message (user_message "m4")).add_message
          (user_message "m5")).create_checkpoint "c2" none).compact_to_checkpoint
          "c1").1) := by
  exact ⟨by decide, by decide⟩

/-- C1 (amended): the checkpoint-index invariant is preserved by
`add_message` and `create_checkpoint`; the counterexample shows
`clear_messages` and rollback break it (compaction's emergency path,
which clears messages after creating a checkpoint, breaks it the same
way). -/
theorem checkpoint_invariant_amended (ctx : Context) (m : Message)
    (id : String) (summary : Option String)
    (h : checkpointIndicesValid ctx) :
    checkpointIndicesValid (ctx.add_message m) ∧
    checkpointIndicesValid (ctx.create_checkpoint id summary) := by
  constructor
  · intro cp hcp
    refine ⟨Nat.zero_le _, ?_⟩
    have := (h cp hcp).2
    simp only [Context.add_message, Context.message_count, List.length_append] at *
    omega
  · intro cp hcp
    simp only [Context.create_checkpoint, List.mem_append, List.mem_singleton] at hcp
    rcases hcp with hcp | hcp
    · exact ⟨Nat.zero_le _, (h cp hcp).2⟩
    · subst hcp
      exact ⟨Nat.zero_le _, Nat.le_refl _⟩

/-- Witness for C1's amended theorem: the invariant holds for the empty
context and survives appending a message and creating a checkpoint. -/
theorem checkpoint_invariant_amended_witness :
    checkpointIndicesValid Context.new ∧
    (checkpointIndicesValid (Context.new.add_message (user_message "hi")) ∧
     checkpointIndicesValid (Context.new.create_checkpoint "cp1" none)) :=
  ⟨by decide, checkpoint_invariant_amended Context.new (user_message "hi")
    "cp1" none (by decide)⟩

/-! ## C2 — rollback semantics -/

/-- C2 (counterexample): rolling back to a checkpoint does not always
leave the message count equal to `checkpoint.message_index`.  After
`clear_messages` a checkpoint with `message_index = 1` remains while the
log is empty, and `Vec::truncate` cannot grow the log, so rollback
leaves the count at 0 ≠ 1. -/
theorem rollback_message_count_cex :
    let ctx := (((Context.new).add_message (user_message "hi")).create_checkpoint
      "a" none).clear_messages
    ctx.checkpoints.find? (fun c => c.id == "a") =
      some { id := "a", message_index := 1, token_count := 0, summary := none } ∧
    (ctx.compact_to_checkpoint "a").1.message_count ≠ 1 := by
  exact ⟨by decide, by decide⟩

/-- C2 (amended): rolling back to a contained checkpoint `cp` (by id or
to the last checkpoint) leaves the message count equal to
`min cp.message_index message_count` — i.e. to `cp.message_index`
whenever the index does not exceed the current count — sets
`token_count` to the checkpoint's recorded value, and leaves the
checkpoint list (hence `cp` itself) intact. -/
theorem rollback_semantics (ctx : Context) (cp : Checkpoint) (id : String) :
    (ctx.checkpoints.find? (fun c => c.id == id) = some cp →
      (ctx.compact_to_checkpoint id).1.message_count =
        min cp.message_index ctx.message_count ∧
      (ctx.compact_to_checkpoint id).1.token_count = cp.token_count ∧
      (ctx.compact_to_checkpoint id).1.checkpoints = ctx.checkpoints ∧
      cp ∈ (ctx.compact_to_checkpoint id).1.checkpoints) ∧
    (ctx.checkpoints.getLast? = some cp →
      ctx.compact_to_last_checkpoint.1.message_count =
        min cp.message_index ctx.message_count ∧
      ctx.compact_to_last_checkpoint.1.token_count = cp.token_count ∧
      ctx.compact_to_last_checkpoint.1.checkpoints = ctx.checkpoints ∧
      cp ∈ ctx.compact_to_last_checkpoint.1.checkpoints) := by
  constructor
  · intro hfind
    have hmem : cp ∈ ctx.checkpoints := List.mem_of_find?_eq_some hfind
    simp [Context.compact_to_checkpoint, hfind, Context.message_count,
      List.length_take, hmem]
  · intro hlast
    have hmem : cp ∈ ctx.checkpoints := List.mem_of_getLast?_eq_some hlast
    simp [Context.compact_to_last_checkpoint, hlast, Context.message_count,
      List.length_take, hmem]

/-- Witness for C2's amended theorem at a concrete transcript: two
messages, a checkpoint at index 2 recording 7 tokens, a further message;
rollback by id truncates to 2 messages and restores 7 tokens, keeping
the checkpoint. -/
theorem rollback_semantics_witness :
    let ctx := ((((Context.new.add_message (user_message "m1")).add_message
      (user_message "m2")).set_token_count 7).create_checkpoint "cp"
      none).add_message (user_message "m3")
    let cp : Checkpoint :=
      { id := "cp", message_index := 2, token_count := 7, summary := none }
    ctx.checkpoints.find? (fun c => c.id == "cp") = some cp ∧
    ((ctx.compact_to_checkpoint "cp").1.message_count =
        min cp.message_index ctx.message_count ∧
      (ctx.compact_to_checkpoint "cp").1.token_count = cp.token_count ∧
      (ctx.compact_to_checkpoint "cp").1.checkpoints = ctx.checkpoints ∧
      cp ∈ (ctx.compact_to_checkpoint "cp").1.checkpoints) :=
  ⟨by decide, (rollback_semantics _ _ _).1 (by decide)⟩

/-! ## C3 — D-Mail handling at the top of a step -/

/-- C3: a pending D-Mail observed at the top of `KimiSoul::step` makes
the loop truncate the transcript to the checkpoint whose id matches the
D-Mail's `checkpoint_id` (falling back to the last checkpoint exactly
when that id is unknown, and leaving the log untouched when there is no
checkpoint at all), append a user message carrying the D-Mail's text,
emit no events, keep the iteration counter, and continue the loop. -/
theorem dmail_rollback_step (s : SoulState) (env : StepEnv) (d : DMail)
    (hd : env.dmail = some d) :
    (∀ cp, s.context.checkpoints.find?
        (fun c => c.id == toString d.checkpoint_id) = some cp →
      (step s env).1.context.messages =
        s.context.messages.take cp.message_index ++ [user_message d.message]) ∧
    (s.context.checkpoints.find?
        (fun c => c.id == toString d.checkpoint_id) = none →
      ∀ cp, s.context.checkpoints.getLast? = some cp →
      (step s env).1.context.messages =
        s.context.messages.take cp.message_index ++ [user_message d.message]) ∧
    (s.context.checkpoints.find?
        (fun c => c.id == toString d.checkpoint_id) = none →
      s.context.checkpoints.getLast? = none →
      (step s env).1.context.messages =
        s.context.messages ++ [user_message d.message]) ∧
    (step s env).2.1 = [] ∧
    (step s env).2.2 = .cont ∧
    (step s env).1.iteration = s.iteration := by
  refine ⟨?_, ?_, ?_, ?_, ?_, ?_⟩
  · intro cp hfind
    simp [step, step_dmail, hd, Context.compact_to_checkpoint, hfind,
      Context.add_message]
  · intro hfind cp hlast
    simp [step, step_dmail, hd, Context.compact_to_checkpoint, hfind,
      Context.compact_to_last_checkpoint, hlast, Context.add_message]
  · intro hfind hlast
    simp [step, step_dmail, hd, Context.compact_to_checkpoint, hfind,
      Context.compact_to_last_checkpoint, hlast, Context.add_message]
  · simp [step, hd]
  · simp [step, hd]
  · simp [step, hd]

/-- Witness for C3 at the spec's concrete scenario: checkpoints at
indices 3 and 7, transcript length 9, a D-Mail naming the first
checkpoint (id "1"); the next step truncates to 3 messages and appends
the injected user message "try again" at index 3. -/
theorem dmail_rollback_step_witness :
    let m := fun (i : Nat) => user_message (toString i)
    let ctx : Context :=
      { messages := [m 0, m 1, m 2, m 3, m 4, m 5, m 6, m 7, m 8]
        checkpoints :=
          [{ id := "1", message_index := 3, token_count := 30, summary := none },
           { id := "2", message_index := 7, token_count := 70, summary := none }]
        token_count := 90 }
    let s : SoulState :=
      { context := ctx, iteration := 2
        loop_control := { max_iterations := 10, timeout_seconds := 300 }
        should_stop := false, turn_start := some 0
        compaction_max_tokens := 8000, tools := [], yolo := true
        agent_name := "kimi" }
    let env : StepEnv :=
      { dmail := some { checkpoint_id := 1, message := "try again" }
        elapsed := 0, fresh_checkpoint_id := "f"
        llm := .text "ok", request_ids := fun _ => "r"
        approvals := fun _ => .approve
        toolExec := fun _ _ => .ok .null
        parse := fun _ => .error "unused", serialize := fun _ => "null" }
    (step s env).1.context.messages =
      [m 0, m 1, m 2, user_message "try again"] ∧
    (step s env).1.context.messages.length = 4 ∧
    (step s env).1.context.messages[3]? = some (user_message "try again") ∧
    (step s env).2.2 = .cont := by
  intro m ctx s env
  have h := dmail_rollback_step s env
    { checkpoint_id := 1, message := "try again" } rfl
  have h1 := h.1
    { id := "1", message_index := 3, token_count := 30, summary := none }
    (by decide)
  refine ⟨?_, ?_, ?_, h.2.2.2.2.1⟩
  · rw [h1]; rfl
  · rw [h1]; rfl
  · rw [h1]; rfl

/-! ## C4 — the merged wire view coalesces text runs -/

namespace WireChannel

theorem mergeSpec_nil : mergeSpec [] = [] := by
  simp [mergeSpec]

theorem mergeSpec_cons_text (t : String) (rest : List WireMessage) :
    mergeSpec (.textPart t :: rest) =
      .textPart (((rest.takeWhile isTextPart).filterMap textOf).foldl
          (fun a b => a ++ b) t)
        :: mergeSpec (rest.dropWhile isTextPart) := by
  rw [mergeSpec]

theorem mergeSpec_cons_nonText (m : WireMessage) (rest : List WireMessage)
    (hm : isTextPart m = false) :
    mergeSpec (m :: rest) = m :: mergeSpec rest := by
  cases m <;> simp only [isTextPart, Bool.true_eq_false] at hm <;>
    (rw [mergeSpec]) <;> simp

theorem mergeSpec_text_absorb (a b : String) (rest : List WireMessage) :
    mergeSpec (.textPart a :: .textPart b :: rest) =
      mergeSpec (.textPart (a ++ b) :: rest) := by
  rw [mergeSpec_cons_text, mergeSpec_cons_text]
  simp [List.takeWhile_cons, List.dropWhile_cons, isTextPart, textOf]

theorem mergeSpec_text_cons_nonText (b : String) (m : WireMessage)
    (rest : List WireMessage) (hm : isTextPart m = false) :
    mergeSpec (.textPart b :: m :: rest) =
      .textPart b :: m :: mergeSpec rest := by
  rw [mergeSpec_cons_text]
  simp [List.takeWhile_cons, List.dropWhile_cons, hm,
    mergeSpec_cons_nonText m rest hm]

theorem sendAll_deliver (msgs : List WireMessage) : ∀ buf : Option String,
    (sendAll buf msgs).2 ++ flush (sendAll buf msgs).1 =
      mergeSpec (flush buf ++ msgs) := by
  induction msgs with
  | nil =>
      intro buf
      cases buf with
      | none => simp [sendAll, flush, mergeSpec_nil]
      | some b =>
          simp [sendAll, flush, mergeSpec_cons_text, mergeSpec_nil]
  | cons m rest ih =>
      intro buf
      cases hm : isTextPart m with
      | true =>
          obtain ⟨t, rfl⟩ : ∃ t, m = .textPart t := by
            cases m <;> simp [isTextPart] at hm ⊢
          cases buf with
          | none =>
              simpa [sendAll, send, flush] using ih (some t)
          | some b =>
              have h := ih (some (b ++ t))
              simp only [sendAll, send, flush, List.nil_append,
                List.singleton_append] at h ⊢
              rw [h, ← mergeSpec_text_absorb]
      | false =>
          have hsend : send buf m = (none, flush buf ++ [m]) := by
            cases m <;> simp [isTextPart] at hm ⊢ <;> simp [send]
          have h := ih none
          simp only [flush, List.nil_append] at h
          cases buf with
          | none =>
              simp only [sendAll, hsend, flush, List.nil_append]
              rw [mergeSpec_cons_nonText m rest hm, ← h]
              simp [sendAll]
          | some b =>
              simp only [sendAll, hsend, flush, List.nil_append,
                List.singleton_append, List.cons_append, List.append_assoc]
              rw [mergeSpec_text_cons_nonText b m rest hm, ← h]

end WireChannel

/-- C4: for every finite sequence of events sent by the producer and
then closed out by the producer's drop (whose `Drop` impl flushes), the
sequence delivered on the merged view equals the sent sequence with
every maximal run of consecutive `TextPart` events replaced by a single
`TextPart` carrying the concatenation of the run's texts — all other
events, `ThinkPart` included, unchanged and in order; buffered unflushed
text is still delivered before the channel closes. -/
theorem merged_view_coalesces_text_runs (msgs : List WireMessage) :
    WireChannel.mergedDelivery msgs = WireChannel.mergeSpec msgs := by
  have h := WireChannel.sendAll_deliver msgs none
  simpa [WireChannel.mergedDelivery, WireChannel.flush] using h

/-! ## C6 — rejected tool calls -/

/-- C6: when the approval request for a tool call resolves as `Reject`,
`execute_tool_call` emits no `ToolBegin` and no `ToolEnd` (indeed no
event at all for that call) and yields exactly the string
"Tool 'NAME' was rejected by user approval"; `process_single_turn`
appends that string as a tool message and reports
`ToolCallsExecuted`, so `process_message` continues to the next LLM
round instead of terminating the turn. -/
theorem rejected_tool_call_captured (tools : List String) (env : ChatEnv)
    (tc : KosongToolCall) (ctx : Context) (v : Json)
    (hreg : tools.contains tc.function.name = true)
    (hparse : env.parse tc.function.arguments = .ok v)
    (hrej : ∀ r : Request, env.approvals r = .reject) :
    execute_tool_call tools env tc =
      .ok ("Tool '" ++ tc.function.name ++ "' was rejected by user approval",
        []) ∧
    process_single_turn ctx tools env [.ok (.toolCall tc)] =
      ([], .ok
        ((ctx.add_message
          { role := .assistant
            content := ""
            metadata := some [("tool_calls", toolCallsJson [tc])] }).add_message
          { role := .tool
            content := "Tool '" ++ tc.function.name ++
              "' was rejected by user approval"
            metadata := none },
         .toolCallsExecuted)) := by
  have hexec : execute_tool_call tools env tc =
      .ok ("Tool '" ++ tc.function.name ++ "' was rejected by user approval",
        []) := by
    have hmem : tc.function.name ∈ tools := by simpa using hreg
    simp [execute_tool_call, hmem, hparse, hrej]
  refine ⟨hexec, ?_⟩
  simp [process_single_turn, streamLoop, runPendingToolCalls, hexec]

/-- Witness for C6: a concrete rejected `write` call — the result is the
exact rejection string, no events are emitted, and the turn goes on. -/
theorem rejected_tool_call_captured_witness :
    let env : ChatEnv :=
      { parse := fun _ => .ok (.obj [("path", .str "/etc/passwd")])
        serialize := fun _ => "null"
        toolExec := fun _ _ => .ok .null
        approvals := fun _ => .reject
        fresh_request_id := "r1" }
    let tc : KosongToolCall :=
      { id := "t1"
        function := { name := "write", arguments := "\x7b\x7d" } }
    execute_tool_call ["write"] env tc =
      .ok ("Tool 'write' was rejected by user approval", []) ∧
    process_single_turn Context.new ["write"] env [.ok (.toolCall tc)] =
      ([], .ok
        ((Context.new.add_message
          { role := .assistant
            content := ""
            metadata := some [("tool_calls", toolCallsJson [tc])] }).add_message
          { role := .tool
            content := "Tool 'write' was rejected by user approval"
            metadata := none },
         .toolCallsExecuted)) := by
  intro env tc
  exact rejected_tool_call_captured ["write"] env tc Context.new
    (.obj [("path", .str "/etc/passwd")]) rfl rfl (fun _ => rfl)

/-! ## C7 — tool-failure handling -/

/-- C7 (counterexample): a tool call whose arguments are not valid JSON
does **not** get a tool-message appended — the parse failure is
propagated with `?` as `SoulError::Tool("Invalid tool arguments: …")`
and terminates the turn. -/
theorem tool_args_parse_failure_terminates_turn :
    process_single_turn Context.new ["echo"]
      { parse := fun _ => .error "expected value at line 1 column 1"
        serialize := fun _ => "null"
        toolExec := fun _ _ => .ok .null
        approvals := fun _ => .approve
        fresh_request_id := "r1" }
      [.ok (.toolCall
        { id := "t1", function := { name := "echo", arguments := "not json" } })] =
      ([], .error
        (.tool "Invalid tool arguments: expected value at line 1 column 1")) :=
  rfl

/-- C7 (amended): tool failures split in two.  An argument-JSON parse
failure is **propagated** (as `SoulError::Tool("Invalid tool arguments:
…")` in the chat path, `"Invalid arguments: …"` in
`KimiSoul::execute_tool`) and terminates the turn.  A tool **execution**
failure is captured: the chat path appends it as a tool-message
(`"Tool execution failed: …"`) and the turn continues to the next
round; `KimiSoul::execute_tool` records it as a `ToolCallResult` with
`is_error = true`. -/
theorem tool_failure_handling (tools : List String) (env : ChatEnv)
    (tc : KosongToolCall) (ctx : Context) (v : Json) (eparse : String)
    (te : ToolError) (s : SoulState) (senv : StepEnv) (kcall : ToolCall) :
    (tools.contains tc.function.name = true →
     env.parse tc.function.arguments = .error eparse →
     execute_tool_call tools env tc =
       .error (.tool ("Invalid tool arguments: " ++ eparse)) ∧
     process_single_turn ctx tools env [.ok (.toolCall tc)] =
       ([], .error (.tool ("Invalid tool arguments: " ++ eparse)))) ∧
    (tools.contains tc.function.name = true →
     env.parse tc.function.arguments = .ok v →
     (∀ r : Request, env.approvals r = .approve) →
     env.toolExec tc.function.name v = .error te →
     execute_tool_call tools env tc =
       .ok ("Tool execution failed: " ++ te.toMessage,
         [.toolBegin tc.function.name tc.function.arguments,
          .toolEnd tc.function.name ("Tool execution failed: " ++ te.toMessage)]) ∧
     process_single_turn ctx tools env [.ok (.toolCall tc)] =
       ([.toolBegin tc.function.name tc.function.arguments,
         .toolEnd tc.function.name ("Tool execution failed: " ++ te.toMessage)],
        .ok
        ((ctx.add_message
          { role := .assistant
            content := ""
            metadata := some [("tool_calls", toolCallsJson [tc])] }).add_message
          { role := .tool
            content := "Tool execution failed: " ++ te.toMessage
            metadata := none },
         .toolCallsExecuted))) ∧
    (s.tools.contains kcall.name = true →
     senv.parse kcall.arguments = .ok v →
     senv.toolExec kcall.name v = .error te →
     execute_tool s senv kcall =
       .ok { tool_call_id := kcall.id, output := te.toMessage, is_error := true }) := by
  refine ⟨?_, ?_, ?_⟩
  · intro hreg hparse
    have hexec : execute_tool_call tools env tc =
        .error (.tool ("Invalid tool arguments: " ++ eparse)) := by
      have hmem : tc.function.name ∈ tools := by simpa using hreg
      simp [execute_tool_call, hmem, hparse]
    refine ⟨hexec, ?_⟩
    simp [process_single_turn, streamLoop, runPendingToolCalls, hexec]
  · intro hreg hparse happ hfail
    have hexec : execute_tool_call tools env tc =
        .ok ("Tool execution failed: " ++ te.toMessage,
          [.toolBegin tc.function.name tc.function.arguments,
           .toolEnd tc.function.name
             ("Tool execution failed: " ++ te.toMessage)]) := by
      have hmem : tc.function.name ∈ tools := by simpa using hreg
      simp [execute_tool_call, hmem, hparse, happ, KimiToolset.execute, hfail]
    refine ⟨hexec, ?_⟩
    simp [process_single_turn, streamLoop, runPendingToolCalls, hexec]
  · intro hreg hparse hfail
    have hmem : kcall.name ∈ s.tools := by simpa using hreg
    simp [execute_tool, ToolCall.parse_arguments, hparse,
      KimiToolset.execute, hmem, hfail, ToolCallResult.mkError]

/-- Witness for C7's amended theorem, applied at two concrete inputs:
an invalid-JSON call terminates the turn with `SoulError::Tool`, and an
execution failure is captured as a tool message / an `is_error` result
while the turn continues. -/
theorem tool_failure_handling_witness :
    let envBad : ChatEnv :=
      { parse := fun _ => .error "expected value"
        serialize := fun _ => "null"
        toolExec := fun _ _ => .ok .null
        approvals := fun _ => .approve
        fresh_request_id := "r1" }
    let envFail : ChatEnv :=
      { parse := fun _ => .ok .null
        serialize := fun _ => "null"
        toolExec := fun _ _ => .error (.execution "boom")
        approvals := fun _ => .approve
        fresh_request_id := "r1" }
    let tc : KosongToolCall :=
      { id := "t1", function := { name := "echo", arguments := "not json" } }
    let senv : StepEnv :=
      { dmail := none, elapsed := 0, fresh_checkpoint_id := "f"
        llm := .text "ok", request_ids := fun _ => "r"
        approvals := fun _ => .approve
        toolExec := fun _ _ => .error (.execution "boom")
        parse := fun _ => .ok .null, serialize := fun _ => "null" }
    let s : SoulState :=
      { context := Context.new, iteration := 0
        loop_control := { max_iterations := 10, timeout_seconds := 300 }
        should_stop := false, turn_start := none
        compaction_max_tokens := 8000, tools := ["echo"], yolo := true
        agent_name := "kimi" }
    (process_single_turn Context.new ["echo"] envBad [.ok (.toolCall tc)] =
      ([], .error (.tool "Invalid tool arguments: expected value"))) ∧
    (execute_tool_call ["echo"] envFail tc =
      .ok ("Tool execution failed: Execution failed: boom",
        [.toolBegin "echo" "not json",
         .toolEnd "echo" "Tool execution failed: Execution failed: boom"])) ∧
    (execute_tool s senv { id := "k1", name := "echo", arguments := "\x7b\x7d" } =
      .ok { tool_call_id := "k1", output := "Execution failed: boom",
            is_error := true }) := by
  intro envBad envFail tc senv s
  refine ⟨?_, ?_, ?_⟩
  · exact (tool_failure_handling ["echo"] envBad tc Context.new .null
      "expected value" (.execution "boom") s senv
      { id := "k1", name := "echo", arguments := "\x7b\x7d" }).1 rfl rfl |>.2
  · exact ((tool_failure_handling ["echo"] envFail tc Context.new .null
      "expected value" (.execution "boom") s senv
      { id := "k1", name := "echo", arguments := "\x7b\x7d" }).2.1 rfl rfl
      (fun _ => rfl) rfl).1
  · exact (tool_failure_handling ["echo"] envFail tc Context.new .null
      "expected value" (.execution "boom") s senv
      { id := "k1", name := "echo", arguments := "\x7b\x7d" }).2.2 rfl rfl rfl

/-! ## C9 — turn event ordering -/

theorem stepBeginNs_nil : stepBeginNs [] = [] := rfl

theorem stepBeginNs_append (a b : List WireMessage) :
    stepBeginNs (a ++ b) = stepBeginNs a ++ stepBeginNs b := by
  simp [stepBeginNs, List.filterMap_append]

theorem step_compact_iteration (s : SoulState) (env : StepEnv) :
    (step_compact s env).1.iteration = s.iteration := by
  unfold step_compact
  split <;> rfl

theorem step_compact_loop_control (s : SoulState) (env : StepEnv) :
    (step_compact s env).1.loop_control = s.loop_control := by
  unfold step_compact
  split <;> rfl

theorem step_compact_no_stepBegin (s : SoulState) (env : StepEnv) :
    stepBeginNs (step_compact s env).2 = [] := by
  unfold step_compact
  split <;> rfl

/-- One `KimiSoul::step` either emits no `StepBegin` and keeps the
iteration counter (D-Mail, budget exits), or emits exactly
`StepBegin{current iteration}` and increments the counter. -/
theorem step_stepBegin_shape (s : SoulState) (env : StepEnv) :
    (stepBeginNs (step s env).2.1 = [] ∧ (step s env).1.iteration = s.iteration) ∨
    (stepBeginNs (step s env).2.1 = [s.iteration] ∧
      (step s env).1.iteration = s.iteration + 1) := by
  unfold step
  cases env.dmail with
  | some d => exact Or.inl ⟨rfl, rfl⟩
  | none =>
      dsimp only
      split
      · exact Or.inl ⟨step_compact_no_stepBegin s env, step_compact_iteration s env⟩
      · split
        · exact Or.inl ⟨step_compact_no_stepBegin s env, step_compact_iteration s env⟩
        · refine Or.inr ?_
          cases env.llm <;>
            exact ⟨by rw [stepBeginNs_append, step_compact_no_stepBegin,
                step_compact_iteration]; rfl,
              by simp [step_compact_iteration]⟩

/-- The tool batch of `KimiSoul::execute_tool_calls` emits no
`StepBegin` event (its only events are `ApprovalRequest`s). -/
theorem execute_tool_calls_go_no_stepBegin (s : SoulState) (env : StepEnv) :
    ∀ (calls : List ToolCall) (i : Nat),
      stepBeginNs (execute_tool_calls_go s env i calls).1 = [] := by
  intro calls
  induction calls with
  | nil => intro i; rfl
  | cons call rest ih =>
      intro i
      unfold execute_tool_calls_go
      dsimp only
      split
      · exact ih (i + 1)
      · split
        · split
          · simpa [stepBeginNs] using ih (i + 1)
          · split
            · rfl
            · simpa [stepBeginNs] using ih (i + 1)
        · split
          · rfl
          · exact ih (i + 1)

/-- The `StepBegin` iteration numbers of one `agent_loop` execution form
the contiguous ascending block starting at the entry iteration. -/
theorem agent_loop_go_stepBegins (env : Nat → StepEnv) :
    ∀ (fuel : Nat) (s : SoulState) (idx : Nat),
      ∃ k, stepBeginNs (agent_loop_go env fuel s idx).2.1 =
        List.range' s.iteration k := by
  intro fuel
  induction fuel with
  | zero => intro s idx; exact ⟨0, rfl⟩
  | succ fuel ih =>
      intro s idx
      unfold agent_loop_go
      dsimp only
      split
      · exact ⟨0, rfl⟩
      · have hshape := step_stepBegin_shape s (env idx)
        cases hout : (step s (env idx)).2.2 with
        | cont =>
            obtain ⟨k, hk⟩ := ih (step s (env idx)).1 (idx + 1)
            simp only [hout]
            rcases hshape with ⟨h1, h2⟩ | ⟨h1, h2⟩
            · refine ⟨k, ?_⟩
              rw [stepBeginNs_append, h1, hk, h2]
              rfl
            · refine ⟨k + 1, ?_⟩
              rw [stepBeginNs_append, h1, hk, h2]
              rfl
        | complete response =>
            simp only [hout]
            rcases hshape with ⟨h1, _⟩ | ⟨h1, _⟩
            · exact ⟨0, h1⟩
            · exact ⟨1, h1⟩
        | toolCalls calls =>
            simp only [hout]
            have htevs : stepBeginNs
                (execute_tool_calls (step s (env idx)).1 (env idx) calls).1 = [] :=
              execute_tool_calls_go_no_stepBegin _ _ calls 0
            cases ht : (execute_tool_calls (step s (env idx)).1 (env idx) calls).2 with
            | error e =>
                simp only [ht]
                rcases hshape with ⟨h1, _⟩ | ⟨h1, _⟩
                · refine ⟨0, ?_⟩
                  rw [stepBeginNs_append, h1, htevs]
                  rfl
                · refine ⟨1, ?_⟩
                  rw [stepBeginNs_append, h1, htevs]
                  rfl
            | ok results =>
                simp only [ht]
                obtain ⟨k, hk⟩ := ih
                  ((step s (env idx)).1.with_context
                    (appendToolResults (step s (env idx)).1.context results))
                  (idx + 1)
                have hit : ((step s (env idx)).1.with_context
                    (appendToolResults (step s (env idx)).1.context
                      results)).iteration = (step s (env idx)).1.iteration := rfl
                rw [hit] at hk
                rcases hshape with ⟨h1, h2⟩ | ⟨h1, h2⟩
                · refine ⟨k, ?_⟩
                  rw [stepBeginNs_append, stepBeginNs_append, h1, htevs, hk, h2]
                  rfl
                · refine ⟨k + 1, ?_⟩
                  rw [stepBeginNs_append, stepBeginNs_append, h1, htevs, hk, h2]
                  rfl
        | interrupted =>
            simp only [hout]
            rcases hshape with ⟨h1, _⟩ | ⟨h1, _⟩
            · refine ⟨0, ?_⟩
              rw [stepBeginNs_append, h1]
              rfl
            · refine ⟨1, ?_⟩
              rw [stepBeginNs_append, h1]
              rfl
        | timeout =>
            simp only [hout]
            rcases hshape with ⟨h1, _⟩ | ⟨h1, _⟩
            · exact ⟨0, h1⟩
            · exact ⟨1, h1⟩
        | maxIterations =>
            simp only [hout]
            rcases hshape with ⟨h1, _⟩ | ⟨h1, _⟩
            · exact ⟨0, h1⟩
            · exact ⟨1, h1⟩

/-- C9: every turn's event sequence starts with `TurnBegin` and ends
with `TurnEnd`, and the iteration numbers of its `StepBegin` events are
exactly `0, 1, 2, …` — starting at 0 and strictly increasing. -/
theorem turn_event_order (fuel : Nat) (s : SoulState) (ui : UserInput)
    (env : Nat → StepEnv) (ckpt_id : String) (h0 : s.iteration = 0) :
    (run fuel s ui env ckpt_id).2.1.head? = some (.turnBegin ui) ∧
    (run fuel s ui env ckpt_id).2.1.getLast? = some .turnEnd ∧
    ∃ k, stepBeginNs (run fuel s ui env ckpt_id).2.1 = List.range k := by
  have hlast : ∀ l : List WireMessage,
      (WireMessage.turnBegin ui :: (l ++ [WireMessage.turnEnd])).getLast? =
        some .turnEnd := by
    intro l
    rw [show WireMessage.turnBegin ui :: (l ++ [WireMessage.turnEnd]) =
      (WireMessage.turnBegin ui :: l) ++ [WireMessage.turnEnd] from rfl]
    exact List.getLast?_concat _
  have hns : ∀ (st : SoulState), st.iteration = 0 →
      ∃ k, stepBeginNs (WireMessage.turnBegin ui ::
        ((agent_loop fuel st env).2.1 ++ [WireMessage.turnEnd])) =
        List.range k := by
    intro st hst
    obtain ⟨k, hk⟩ := agent_loop_go_stepBegins env fuel
      (st.with_turn_start (some 0)) 0
    refine ⟨k, ?_⟩
    have hsplit : stepBeginNs (WireMessage.turnBegin ui ::
        ((agent_loop fuel st env).2.1 ++ [WireMessage.turnEnd])) =
        stepBeginNs (agent_loop fuel st env).2.1 := by
      simp [stepBeginNs, List.filterMap_append]
    rw [hsplit]
    unfold agent_loop
    rw [hk]
    have hit : (st.with_turn_start (some 0)).iteration = st.iteration := rfl
    rw [hit, hst]
    exact (List.range_eq_range' k).symm
  unfold run
  cases hslash : parse_slash_command ui.text with
  | some p =>
      obtain ⟨command, args⟩ := p
      dsimp only
      cases hreg : registry_get command <;> exact ⟨rfl, rfl, 0, rfl⟩
  | none =>
      dsimp only
      exact ⟨rfl, hlast _, hns _ h0⟩

/-- Witness for C9 at a concrete turn: a fresh soul state, a plain-text
LLM reply, three units of fuel. -/
theorem turn_event_order_witness :
    let s : SoulState :=
      { context := Context.new, iteration := 0
        loop_control := { max_iterations := 10, timeout_seconds := 300 }
        should_stop := false, turn_start := none
        compaction_max_tokens := 8000, tools := [], yolo := true
        agent_name := "kimi" }
    let env : Nat → StepEnv := fun _ =>
      { dmail := none, elapsed := 0, fresh_checkpoint_id := "f"
        llm := .text "hello", request_ids := fun _ => "r"
        approvals := fun _ => .approve
        toolExec := fun _ _ => .ok .null
        parse := fun _ => .ok .null, serialize := fun _ => "null" }
    let ui : UserInput := { text := "Hi", attachments := [] }
    s.iteration = 0 ∧
    ((run 3 s ui env "c0").2.1.head? = some (.turnBegin ui) ∧
     (run 3 s ui env "c0").2.1.getLast? = some .turnEnd ∧
     ∃ k, stepBeginNs (run 3 s ui env "c0").2.1 = List.range k) := by
  intro s env ui
  exact ⟨rfl, turn_event_order 3 s ui env "c0" rfl⟩

end KimiRcli
